import Mathlib

/-!
Life Timer — verification of the timer/reward state machine

Shallow embedding of the timer core of the life-timer application
(src/src/context/TimerContext.tsx, the `@/types` module in
src/unnamed/part_002, and the quest form in
src/src/app/quests/new/page.tsx).

JavaScript numbers are modelled as rationals (every quantity this code
manipulates is a half-integer, on which IEEE-754 arithmetic is exact),
and epoch-millisecond timestamps as integers.
-/

/-- Timer mode, from the `Mode` union "WORK" | "PLAY" | "NOTHING". -/
inductive Mode
  | WORK
  | PLAY
  | NOTHING
deriving DecidableEq, Repr

/-- A quest definition (types module / persisted document shape). -/
structure Quest where
  id : String
  title : String
  rewardMinutes : ℚ
deriving DecidableEq, Repr

/-- A banked reward (types module / persisted document shape). -/
structure InventoryItem where
  id : String
  questId : String
  title : String
  minutes : ℚ
  createdAt : ℤ
deriving DecidableEq, Repr

/-- The per-user snapshot `AppState`. -/
structure AppState where
  workElapsedSeconds : ℚ
  playBalanceSeconds : ℚ
  mode : Mode
  lastTickTimestamp : ℤ
  quests : List Quest
  inventory : List InventoryItem
deriving DecidableEq, Repr

/-- The accrual rate, from the `@/types` module (src/unnamed/part_002):
`export const PLAY_GAIN_RATE = 0.5`. -/
def PLAY_GAIN_RATE : ℚ := 1/2

/-- The penalty amount in seconds, from the `@/types` module
(src/unnamed/part_002): `export const PENALTY_SECONDS = 300`. -/
def PENALTY_SECONDS : ℚ := 300

/-- The computation `Math.floor(elapsedMs / 1000)` for an integer number of milliseconds
(floor division, as in TimerContext.tsx lines 174-175). -/
def elapsedSecondsAt (s : AppState) (now : ℤ) : ℤ :=
  Int.fdiv (now - s.lastTickTimestamp) 1000

/-- Catch-up reconciliation, TimerContext.tsx lines 173-203: if more than
one second passed since `lastTickTimestamp`, apply the mode-dependent
accrual/decay and advance the timestamp; the `Bool` is the play-ended
signal (`triggerPlayEndedNotification` call). -/
def reconcile (s : AppState) (now : ℤ) : AppState × Bool :=
  let elapsedSeconds := elapsedSecondsAt s now
  if 1 < elapsedSeconds then
    match s.mode with
    | Mode.WORK =>
        ({ s with
            workElapsedSeconds := s.workElapsedSeconds + (elapsedSeconds : ℚ),
            playBalanceSeconds := s.playBalanceSeconds +
              ((Rat.floor ((elapsedSeconds : ℚ) * PLAY_GAIN_RATE) : ℤ) : ℚ),
            lastTickTimestamp := now }, false)
    | Mode.PLAY =>
        let newPlayBalance := max 0 (s.playBalanceSeconds - (elapsedSeconds : ℚ))
        if newPlayBalance = 0 then
          ({ s with
              playBalanceSeconds := newPlayBalance,
              mode := Mode.NOTHING,
              lastTickTimestamp := now }, true)
        else
          ({ s with
              playBalanceSeconds := newPlayBalance,
              lastTickTimestamp := now }, false)
    | Mode.NOTHING =>
        ({ s with lastTickTimestamp := now }, false)
  else (s, false)

/-- One step of the one-second interval, TimerContext.tsx lines 206-232.
The `Bool` is the play-ended signal. -/
def tick (s : AppState) (currentTime : ℤ) : AppState × Bool :=
  match s.mode with
  | Mode.WORK =>
      ({ s with
          workElapsedSeconds := s.workElapsedSeconds + 1,
          playBalanceSeconds := s.playBalanceSeconds + PLAY_GAIN_RATE,
          lastTickTimestamp := currentTime }, false)
  | Mode.PLAY =>
      let newPlayBalance := max 0 (s.playBalanceSeconds - 1)
      if newPlayBalance = 0 then
        ({ s with
            playBalanceSeconds := newPlayBalance,
            mode := Mode.NOTHING,
            lastTickTimestamp := currentTime }, true)
      else
        ({ s with
            playBalanceSeconds := newPlayBalance,
            lastTickTimestamp := currentTime }, false)
  | Mode.NOTHING =>
      ({ s with lastTickTimestamp := currentTime }, false)

/-- The function `setMode`, TimerContext.tsx lines 244-258: entering PLAY with a
non-positive balance is rejected (alert, no state change); otherwise the
mode is set and the timestamp reset to `Date.now()` (`now`). -/
def setMode (s : AppState) (newMode : Mode) (now : ℤ) : AppState :=
  if newMode = Mode.PLAY ∧ s.playBalanceSeconds ≤ 0 then s
  else { s with mode := newMode, lastTickTimestamp := now }

/-- The function `applyPenalty`, TimerContext.tsx lines 263-275. -/
def applyPenalty (s : AppState) : AppState :=
  let newWorkElapsed := max 0 (s.workElapsedSeconds - PENALTY_SECONDS)
  let playPenalty := ((Rat.floor (PENALTY_SECONDS * PLAY_GAIN_RATE) : ℤ) : ℚ)
  let newPlayBalance := max 0 (s.playBalanceSeconds - playPenalty)
  { s with
      workElapsedSeconds := newWorkElapsed,
      playBalanceSeconds := newPlayBalance }

/-- The function `addQuest`, TimerContext.tsx lines 280-290; `freshId` stands for
`crypto.randomUUID()`. The function appends unconditionally. -/
def addQuest (s : AppState) (title : String) (rewardMinutes : ℚ)
    (freshId : String) : AppState :=
  let newQuest : Quest := { id := freshId, title := title, rewardMinutes := rewardMinutes }
  { s with quests := s.quests ++ [newQuest] }

/-- The validation gate of `AddQuestPage.handleSubmit`,
src/src/app/quests/new/page.tsx lines 15-34: `parsedMinutes` is the
result of `parseInt(rewardMinutes, 10)` (`none` for NaN). The handler
returns without calling `addQuest` when the trimmed title is empty or
the parsed minutes are NaN or non-positive. -/
def handleSubmit (s : AppState) (title : String) (parsedMinutes : Option ℤ)
    (freshId : String) : AppState :=
  if title.trim = "" then s
  else
    match parsedMinutes with
    | none => s
    | some minutes => if minutes ≤ 0 then s else addQuest s title.trim (minutes : ℚ) freshId

/-- The function `useInventoryItems` (redeem), TimerContext.tsx lines 316-328. -/
def useInventoryItems (s : AppState) (ids : List String) : AppState :=
  let selectedItems := s.inventory.filter (fun item => ids.contains item.id)
  let totalMinutes := selectedItems.foldl (fun sum item => sum + item.minutes) 0
  let totalSeconds := totalMinutes * 60
  { s with
      playBalanceSeconds := s.playBalanceSeconds + totalSeconds,
      inventory := s.inventory.filter (fun item => !(ids.contains item.id)) }

/-- The snapshot mutations quantified over in the balance invariant:
catch-up reconciliation, per-second tick, penalty, redemption. -/
inductive TimerOp
  | catchUp (now : ℤ)
  | tickAt (now : ℤ)
  | penalty
  | redeem (ids : List String)

/-- Apply one mutation to the snapshot (signals discarded). -/
def applyOp (s : AppState) (op : TimerOp) : AppState :=
  match op with
  | TimerOp.catchUp now => (reconcile s now).1
  | TimerOp.tickAt now => (tick s now).1
  | TimerOp.penalty => applyPenalty s
  | TimerOp.redeem ids => useInventoryItems s ids

/-- Apply a finite sequence of mutations in order. -/
def applyOps (s : AppState) (ops : List TimerOp) : AppState :=
  ops.foldl applyOp s

/-- Every inventory item carries a non-negative minute amount. -/
def GoodInventory (s : AppState) : Prop :=
  ∀ item ∈ s.inventory, 0 ≤ item.minutes

/-! ## Sample snapshots used in scenarios, witnesses and counterexamples -/

/-- Scenario A snapshot: fresh WORK snapshot at epoch 0. -/
def sampleWorkZero : AppState :=
  { workElapsedSeconds := 0, playBalanceSeconds := 0, mode := Mode.WORK,
    lastTickTimestamp := 0, quests := [], inventory := [] }

/-- Scenario B snapshot: PLAY with 3 seconds of balance. -/
def samplePlay3 : AppState :=
  { workElapsedSeconds := 0, playBalanceSeconds := 3, mode := Mode.PLAY,
    lastTickTimestamp := 0, quests := [], inventory := [] }

/-- PLAY with 10 seconds of balance (for additivity checks). -/
def samplePlayTen : AppState :=
  { workElapsedSeconds := 0, playBalanceSeconds := 10, mode := Mode.PLAY,
    lastTickTimestamp := 0, quests := [], inventory := [] }

/-- Idle snapshot with zero balance. -/
def sampleIdle : AppState :=
  { workElapsedSeconds := 0, playBalanceSeconds := 0, mode := Mode.NOTHING,
    lastTickTimestamp := 0, quests := [], inventory := [] }

/-- Scenario C snapshot: 100 seconds of work, 40 of balance. -/
def sampleWork100 : AppState :=
  { workElapsedSeconds := 100, playBalanceSeconds := 40, mode := Mode.NOTHING,
    lastTickTimestamp := 0, quests := [], inventory := [] }

/-- Scenario E snapshot: zero balance, two banked rewards of 10 and 15 minutes. -/
def sampleInventory2 : AppState :=
  { workElapsedSeconds := 0, playBalanceSeconds := 0, mode := Mode.NOTHING,
    lastTickTimestamp := 0, quests := [],
    inventory :=
      [{ id := "i1", questId := "q1", title := "read", minutes := 10, createdAt := 0 },
       { id := "i2", questId := "q2", title := "run", minutes := 15, createdAt := 0 }] }

/-- A snapshot whose inventory holds a (malformed) negative-minutes item. -/
def sampleNegItem : AppState :=
  { workElapsedSeconds := 0, playBalanceSeconds := 0, mode := Mode.NOTHING,
    lastTickTimestamp := 0, quests := [],
    inventory := [{ id := "a", questId := "q", title := "t", minutes := -10, createdAt := 0 }] }

/-- The snapshot produced by reconciling the fresh WORK snapshot at 2500 ms. -/
def sampleWorkAt2500 : AppState :=
  { workElapsedSeconds := 2, playBalanceSeconds := 1, mode := Mode.WORK,
    lastTickTimestamp := 2500, quests := [], inventory := [] }

/-- The snapshot produced by reconciling the fresh WORK snapshot at 2000 ms. -/
def sampleWorkAt2000 : AppState :=
  { workElapsedSeconds := 2, playBalanceSeconds := 1, mode := Mode.WORK,
    lastTickTimestamp := 2000, quests := [], inventory := [] }

/-! ## Basic evaluation lemmas -/

theorem ratFloor_eq_intFloor (q : ℚ) : Rat.floor q = Int.floor q :=
  (Rat.floor_def' q).trans Rat.floor_def.symm

theorem reconcile_noop (s : AppState) (now : ℤ)
    (h : elapsedSecondsAt s now ≤ 1) : reconcile s now = (s, false) := by
  simp [reconcile, not_lt.mpr h]

theorem reconcile_work (s : AppState) (now : ℤ)
    (hm : s.mode = Mode.WORK) (h : 2 ≤ elapsedSecondsAt s now) :
    reconcile s now =
      ({ s with
          workElapsedSeconds := s.workElapsedSeconds + (elapsedSecondsAt s now : ℚ),
          playBalanceSeconds := s.playBalanceSeconds +
            ((Rat.floor ((elapsedSecondsAt s now : ℚ) * PLAY_GAIN_RATE) : ℤ) : ℚ),
          lastTickTimestamp := now }, false) := by
  have h1 : (1 : ℤ) < elapsedSecondsAt s now := by omega
  simp [reconcile, hm, h1]

theorem reconcile_play (s : AppState) (now : ℤ)
    (hm : s.mode = Mode.PLAY) (h : 2 ≤ elapsedSecondsAt s now) :
    reconcile s now =
      (if max 0 (s.playBalanceSeconds - (elapsedSecondsAt s now : ℚ)) = 0 then
        ({ s with
            playBalanceSeconds := max 0 (s.playBalanceSeconds - (elapsedSecondsAt s now : ℚ)),
            mode := Mode.NOTHING,
            lastTickTimestamp := now }, true)
      else
        ({ s with
            playBalanceSeconds := max 0 (s.playBalanceSeconds - (elapsedSecondsAt s now : ℚ)),
            lastTickTimestamp := now }, false)) := by
  have h1 : (1 : ℤ) < elapsedSecondsAt s now := by omega
  by_cases hz : max 0 (s.playBalanceSeconds - (elapsedSecondsAt s now : ℚ)) = 0 <;>
    simp [reconcile, hm, h1, hz]

theorem reconcile_nothing (s : AppState) (now : ℤ)
    (hm : s.mode = Mode.NOTHING) (h : 2 ≤ elapsedSecondsAt s now) :
    reconcile s now = ({ s with lastTickTimestamp := now }, false) := by
  have h1 : (1 : ℤ) < elapsedSecondsAt s now := by omega
  simp [reconcile, hm, h1]

/-! ## Helper lemmas -/

theorem foldl_add_minutes (l : List InventoryItem) (a : ℚ) :
    l.foldl (fun sum item => sum + item.minutes) a =
      a + (l.map InventoryItem.minutes).sum := by
  induction l generalizing a with
  | nil => simp
  | cons x xs ih => simp [List.foldl_cons, ih, add_assoc]

theorem useInventoryItems_playBalance (s : AppState) (ids : List String) :
    (useInventoryItems s ids).playBalanceSeconds =
      s.playBalanceSeconds +
        ((s.inventory.filter (fun item => ids.contains item.id)).map
          InventoryItem.minutes).sum * 60 := by
  simp [useInventoryItems, foldl_add_minutes]

theorem penalty_floor_eval : ((Rat.floor (PENALTY_SECONDS * PLAY_GAIN_RATE) : ℤ) : ℚ) = 150 := by
  have h : PENALTY_SECONDS * PLAY_GAIN_RATE = ((150 : ℤ) : ℚ) := by
    norm_num [PENALTY_SECONDS, PLAY_GAIN_RATE]
  rw [h, ratFloor_eq_intFloor, Int.floor_intCast]
  norm_num

/-! ## Claim theorems -/

/-- C6. `setMode` rejects entering PLAY on a non-positive balance with no
state change at all; every other (target, snapshot) combination sets the
mode and resets `lastTickTimestamp` to the current time, leaving all
other fields unchanged. -/
theorem setMode_reject_play_zero_balance (s : AppState) (target : Mode) (now : ℤ) :
    (target = Mode.PLAY ∧ s.playBalanceSeconds ≤ 0 → setMode s target now = s) ∧
    (¬ (target = Mode.PLAY ∧ s.playBalanceSeconds ≤ 0) →
      setMode s target now =
        { s with mode := target, lastTickTimestamp := now }) := by
  constructor
  · intro h
    simp [setMode, h]
  · intro h
    simp [setMode, h]

/-- C6 witness: a zero-balance snapshot cannot enter PLAY (Scenario D),
while switching the same snapshot to WORK succeeds and changes only the
mode and the timestamp. -/
theorem setMode_reject_play_zero_balance_witness :
    setMode sampleIdle Mode.PLAY 7 = sampleIdle ∧
    setMode sampleIdle Mode.WORK 7 =
      { sampleIdle with mode := Mode.WORK, lastTickTimestamp := 7 } := by
  constructor
  · exact (setMode_reject_play_zero_balance sampleIdle Mode.PLAY 7).1
      ⟨rfl, by norm_num [sampleIdle]⟩
  · exact (setMode_reject_play_zero_balance sampleIdle Mode.WORK 7).2
      (by simp [sampleIdle])

/-- C7. `applyPenalty` unconditionally floors `workElapsedSeconds − 300`
and `playBalanceSeconds − 150` at zero, independently, touching nothing
else; on Scenario C's snapshot {100, 40} both floors engage and the
result is {0, 0}. -/
theorem applyPenalty_spec :
    (∀ s : AppState, applyPenalty s =
      { s with
          workElapsedSeconds := max 0 (s.workElapsedSeconds - 300),
          playBalanceSeconds := max 0 (s.playBalanceSeconds - 150) }) ∧
    applyPenalty sampleWork100 =
      { sampleWork100 with workElapsedSeconds := 0, playBalanceSeconds := 0 } := by
  have hgen : ∀ s : AppState, applyPenalty s =
      { s with
          workElapsedSeconds := max 0 (s.workElapsedSeconds - 300),
          playBalanceSeconds := max 0 (s.playBalanceSeconds - 150) } := by
    intro s
    simp only [applyPenalty, penalty_floor_eval]
    norm_num [PENALTY_SECONDS]
  refine ⟨hgen, ?_⟩
  rw [hgen sampleWork100]
  simp [sampleWork100]
  constructor <;> norm_num

/-- C8. Redemption credits exactly 60 seconds per selected inventory
minute: the balance grows by the minute-sum of the inventory items whose
id is selected, exactly those items are removed, absent ids contribute
nothing, and the empty selection is a no-op; on Scenario E's snapshot the
10- and 15-minute items yield 1500 seconds and an empty inventory. -/
theorem useInventoryItems_spec :
    (∀ (s : AppState) (ids : List String),
      (useInventoryItems s ids).playBalanceSeconds =
        s.playBalanceSeconds +
          ((s.inventory.filter (fun item => ids.contains item.id)).map
            InventoryItem.minutes).sum * 60) ∧
    (∀ (s : AppState) (ids : List String) (item : InventoryItem),
      item ∈ (useInventoryItems s ids).inventory ↔
        item ∈ s.inventory ∧ item.id ∉ ids) ∧
    (∀ s : AppState, useInventoryItems s [] = s) ∧
    (useInventoryItems sampleInventory2 ["i1", "i2"]).playBalanceSeconds = 1500 ∧
    (useInventoryItems sampleInventory2 ["i1", "i2"]).inventory = [] := by
  refine ⟨useInventoryItems_playBalance, ?_, ?_, ?_, ?_⟩
  · intro s ids item
    simp [useInventoryItems, List.mem_filter]
  · intro s
    simp [useInventoryItems]
  · rw [useInventoryItems_playBalance]
    norm_num [sampleInventory2]
  · simp [useInventoryItems, sampleInventory2]

/-- C10. Redemption consults the id list only through membership, so a
duplicated id neither double-credits the balance nor removes anything
twice; and redemption leaves `workElapsedSeconds`, `mode` and `quests`
untouched. -/
theorem useInventoryItems_dedup_and_frame :
    (∀ (s : AppState) (ids1 ids2 : List String),
      (∀ x, ids1.contains x = ids2.contains x) →
      useInventoryItems s ids1 = useInventoryItems s ids2) ∧
    (∀ (s : AppState) (ids : List String),
      (useInventoryItems s ids).workElapsedSeconds = s.workElapsedSeconds ∧
      (useInventoryItems s ids).mode = s.mode ∧
      (useInventoryItems s ids).quests = s.quests) := by
  constructor
  · intro s ids1 ids2 h
    simp only [useInventoryItems, h]
  · intro s ids
    simp [useInventoryItems]

/-- C10 witness: redeeming with the duplicated selection ["i1", "i1"] is
the same mutation as redeeming with ["i1"], and the frame fields of
Scenario E's snapshot survive a redemption unchanged. -/
theorem useInventoryItems_dedup_witness :
    useInventoryItems sampleInventory2 ["i1", "i1"] =
      useInventoryItems sampleInventory2 ["i1"] ∧
    (useInventoryItems sampleInventory2 ["i1", "i1"]).playBalanceSeconds = 600 ∧
    (useInventoryItems sampleInventory2 ["i1", "i1"]).mode = sampleInventory2.mode := by
  refine ⟨useInventoryItems_dedup_and_frame.1 sampleInventory2 ["i1", "i1"] ["i1"] ?_, ?_, ?_⟩
  · intro x
    simp [List.contains_cons]
  · rw [useInventoryItems_playBalance]
    simp +decide [sampleInventory2]
    norm_num
  · exact (useInventoryItems_dedup_and_frame.2 sampleInventory2 ["i1", "i1"]).2.1

theorem elapsedSecondsAt_self (s : AppState) (t : ℤ)
    (h : s.lastTickTimestamp = t) : elapsedSecondsAt s t = 0 := by
  simp [elapsedSecondsAt, h]

/-- C4. Reconciliation is a no-op on a non-positive delta, and reconciling
twice at the same instant equals reconciling once. -/
theorem reconcile_noop_and_idempotent (s : AppState) (t : ℤ) :
    (elapsedSecondsAt s t ≤ 0 → (reconcile s t).1 = s) ∧
    (reconcile (reconcile s t).1 t).1 = (reconcile s t).1 := by
  constructor
  · intro h
    rw [reconcile_noop s t (by omega)]
  · have key : ∀ u : AppState, u.lastTickTimestamp = t → (reconcile u t).1 = u := by
      intro u hu
      rw [reconcile_noop u t (by rw [elapsedSecondsAt_self u t hu]; omega)]
    by_cases h : elapsedSecondsAt s t ≤ 1
    · simp [reconcile_noop s t h]
    · have h2 : 2 ≤ elapsedSecondsAt s t := by omega
      cases hm : s.mode with
      | WORK =>
          rw [reconcile_work s t hm h2]
          exact key _ rfl
      | PLAY =>
          rw [reconcile_play s t hm h2]
          by_cases hz : max 0 (s.playBalanceSeconds - (elapsedSecondsAt s t : ℚ)) = 0
          · rw [if_pos hz]
            exact key _ rfl
          · rw [if_neg hz]
            exact key _ rfl
      | NOTHING =>
          rw [reconcile_nothing s t hm h2]
          exact key _ rfl

/-- C4 witness: at half a second the delta floors to 0 and reconciliation
changes nothing; reconciling the idle snapshot twice at the same instant
equals reconciling it once. -/
theorem reconcile_noop_and_idempotent_witness :
    (reconcile sampleIdle 500).1 = sampleIdle ∧
    (reconcile (reconcile sampleIdle 500).1 500).1 = (reconcile sampleIdle 500).1 :=
  ⟨(reconcile_noop_and_idempotent sampleIdle 500).1 (by decide),
   (reconcile_noop_and_idempotent sampleIdle 500).2⟩

/-- C2 counterexample: catch-up from a fresh WORK snapshot 3000 ms later
credits `floor(3 × 0.5) = 1` second of play, not the exact `3 × 0.5 =
1.5` the claim asserts; and at a positive delta of exactly 1 second the
catch-up is a no-op (the guard is `elapsedSeconds > 1`), so
`workElapsedSeconds` does not grow by the elapsed second. -/
theorem catchup_work_counterexample :
    elapsedSecondsAt sampleWorkZero 3000 = 3 ∧
    (reconcile sampleWorkZero 3000).1.playBalanceSeconds = 1 ∧
    ((1 : ℚ) ≠ 3 * PLAY_GAIN_RATE) ∧
    elapsedSecondsAt sampleWorkZero 1000 = 1 ∧
    (reconcile sampleWorkZero 1000).1 = sampleWorkZero := by
  have he : elapsedSecondsAt sampleWorkZero 3000 = 3 := by decide
  refine ⟨he, ?_, by norm_num [PLAY_GAIN_RATE], by decide,
    congrArg Prod.fst (reconcile_noop sampleWorkZero 1000 (by decide))⟩
  rw [reconcile_work sampleWorkZero 3000 rfl (by decide)]
  show sampleWorkZero.playBalanceSeconds +
    ((Rat.floor ((elapsedSecondsAt sampleWorkZero 3000 : ℚ) * PLAY_GAIN_RATE) : ℤ) : ℚ) = 1
  rw [he]
  norm_num [sampleWorkZero, PLAY_GAIN_RATE, Rat.floor_def']

/-- C2 amended: for a WORK snapshot and a delta of at least 2 whole
seconds, catch-up adds `elapsedSeconds` to `workElapsedSeconds` and
`floor(elapsedSeconds × 0.5)` (truncated, not exact) to
`playBalanceSeconds`, advances `lastTickTimestamp` to `t`, keeps WORK
mode, and emits no ended signal. -/
theorem catchup_work_amended (s : AppState) (t : ℤ)
    (hm : s.mode = Mode.WORK) (h : 2 ≤ elapsedSecondsAt s t) :
    (reconcile s t).1.workElapsedSeconds =
      s.workElapsedSeconds + (elapsedSecondsAt s t : ℚ) ∧
    (reconcile s t).1.playBalanceSeconds =
      s.playBalanceSeconds +
        ((Int.floor ((elapsedSecondsAt s t : ℚ) * PLAY_GAIN_RATE) : ℤ) : ℚ) ∧
    (reconcile s t).1.mode = Mode.WORK ∧
    (reconcile s t).1.lastTickTimestamp = t ∧
    (reconcile s t).2 = false := by
  rw [reconcile_work s t hm h]
  exact ⟨rfl, by rw [ratFloor_eq_intFloor], hm, rfl, rfl⟩

/-- C2 witness (Scenario A): reconciling the fresh WORK snapshot 10000 ms
later yields 10 seconds of work and 5 seconds of play, still in WORK. -/
theorem catchup_work_amended_witness :
    (reconcile sampleWorkZero 10000).1.workElapsedSeconds = 10 ∧
    (reconcile sampleWorkZero 10000).1.playBalanceSeconds = 5 ∧
    (reconcile sampleWorkZero 10000).1.mode = Mode.WORK := by
  have he : elapsedSecondsAt sampleWorkZero 10000 = 10 := by decide
  have h := catchup_work_amended sampleWorkZero 10000 rfl (by decide)
  refine ⟨?_, ?_, h.2.2.1⟩
  · rw [h.1, he]
    norm_num [sampleWorkZero]
  · rw [h.2.1, he]
    have hf : ((10 : ℤ) : ℚ) * PLAY_GAIN_RATE = ((5 : ℤ) : ℚ) := by
      norm_num [PLAY_GAIN_RATE]
    rw [hf, Int.floor_intCast]
    norm_num [sampleWorkZero]

/-- C3 counterexample: a PLAY snapshot with balance 3 reconciled 1000 ms
later (elapsedSeconds = 1 > 0) is left completely unchanged by the
catch-up guard `elapsedSeconds > 1`, while the claim demands the balance
drop to `max(0, 3 − 1) = 2`. -/
theorem catchup_play_counterexample :
    elapsedSecondsAt samplePlay3 1000 = 1 ∧
    (reconcile samplePlay3 1000).1 = samplePlay3 ∧
    samplePlay3.playBalanceSeconds = 3 ∧
    max 0 (samplePlay3.playBalanceSeconds - 1) = 2 ∧
    (3 : ℚ) ≠ 2 := by
  refine ⟨by decide,
    congrArg Prod.fst (reconcile_noop samplePlay3 1000 (by decide)), rfl, ?_,
    by norm_num⟩
  norm_num [samplePlay3]

/-- C3 amended: for a PLAY snapshot and a delta of at least 2 whole
seconds, catch-up sets the balance to `max(0, balance − elapsedSeconds)`;
when the result is exactly 0 the same mutation flips the mode to NOTHING
and raises the ended signal; the timestamp advances to `t`. -/
theorem catchup_play_amended (s : AppState) (t : ℤ)
    (hm : s.mode = Mode.PLAY) (h : 2 ≤ elapsedSecondsAt s t) :
    (reconcile s t).1.playBalanceSeconds =
      max 0 (s.playBalanceSeconds - (elapsedSecondsAt s t : ℚ)) ∧
    ((reconcile s t).1.playBalanceSeconds = 0 →
      (reconcile s t).1.mode = Mode.NOTHING ∧ (reconcile s t).2 = true) ∧
    (reconcile s t).1.lastTickTimestamp = t := by
  rw [reconcile_play s t hm h]
  by_cases hz : max 0 (s.playBalanceSeconds - (elapsedSecondsAt s t : ℚ)) = 0
  · rw [if_pos hz]
    exact ⟨rfl, fun _ => ⟨rfl, rfl⟩, rfl⟩
  · rw [if_neg hz]
    exact ⟨rfl, fun hcon => absurd hcon hz, rfl⟩

/-- C3 witness (Scenario B): PLAY with balance 3 reconciled 5000 ms later
clamps to 0, flips to NOTHING, and raises the ended signal. -/
theorem catchup_play_amended_witness :
    (reconcile samplePlay3 5000).1.playBalanceSeconds = 0 ∧
    (reconcile samplePlay3 5000).1.mode = Mode.NOTHING ∧
    (reconcile samplePlay3 5000).2 = true := by
  have h := catchup_play_amended samplePlay3 5000 rfl (by decide)
  have he : elapsedSecondsAt samplePlay3 5000 = 5 := by decide
  have hp : (reconcile samplePlay3 5000).1.playBalanceSeconds = 0 := by
    rw [h.1, he]
    norm_num [samplePlay3]
  exact ⟨hp, (h.2.1 hp).1, (h.2.1 hp).2⟩

/-- C9 counterexample: `addQuest` performs no validation at all — called
with the non-positive reward −5 it still appends a quest, so the state
does change. -/
theorem addQuest_no_ledger_validation :
    (addQuest sampleIdle "x" (-5) "qid").quests =
      [{ id := "qid", title := "x", rewardMinutes := -5 }] ∧
    sampleIdle.quests = [] ∧
    addQuest sampleIdle "x" (-5) "qid" ≠ sampleIdle := by
  refine ⟨by simp [addQuest, sampleIdle], rfl, ?_⟩
  intro hcon
  have h := congrArg AppState.quests hcon
  simp [addQuest, sampleIdle] at h

/-- C9 amended: the ledger itself (`addQuest`) appends unconditionally,
whatever the reward; rejection of a non-positive or unparseable
`rewardMinutes` (and of a blank title) happens only at the UI boundary,
where `AddQuestPage.handleSubmit` returns without touching the state. -/
theorem addQuest_validation_at_ui (s : AppState) (title : String) (r : ℚ)
    (freshId : String) (m : ℤ) :
    addQuest s title r freshId =
      { s with quests :=
          s.quests ++ [{ id := freshId, title := title, rewardMinutes := r }] } ∧
    (m ≤ 0 → handleSubmit s title (some m) freshId = s) ∧
    handleSubmit s title none freshId = s ∧
    (title.trim = "" → handleSubmit s title (some m) freshId = s) := by
  refine ⟨rfl, ?_, ?_, ?_⟩
  · intro hm
    by_cases ht : title.trim = "" <;> simp [handleSubmit, ht, hm]
  · by_cases ht : title.trim = "" <;> simp [handleSubmit, ht]
  · intro ht
    simp [handleSubmit, ht]

/-- C9 witness: submitting reward −5 through the UI handler leaves the
state unchanged, while the raw ledger call appends the invalid quest. -/
theorem addQuest_validation_at_ui_witness :
    handleSubmit sampleIdle "x" (some (-5)) "qid" = sampleIdle ∧
    addQuest sampleIdle "x" (-5) "qid" =
      { sampleIdle with quests := [{ id := "qid", title := "x", rewardMinutes := -5 }] } := by
  constructor
  · exact (addQuest_validation_at_ui sampleIdle "x" (-5) "qid" (-5)).2.1 (by decide)
  · rw [(addQuest_validation_at_ui sampleIdle "x" (-5) "qid" (-5)).1]
    simp [sampleIdle]

/-! ## Frame and preservation lemmas for the balance invariant -/

theorem reconcile_inventory (s : AppState) (t : ℤ) :
    (reconcile s t).1.inventory = s.inventory := by
  by_cases h : elapsedSecondsAt s t ≤ 1
  · rw [reconcile_noop s t h]
  · have h2 : 2 ≤ elapsedSecondsAt s t := by omega
    cases hm : s.mode with
    | WORK => rw [reconcile_work s t hm h2]
    | PLAY =>
        rw [reconcile_play s t hm h2]
        split <;> rfl
    | NOTHING => rw [reconcile_nothing s t hm h2]

theorem tick_inventory (s : AppState) (t : ℤ) :
    (tick s t).1.inventory = s.inventory := by
  cases hm : s.mode with
  | WORK => simp [tick, hm]
  | PLAY =>
      simp only [tick, hm]
      split <;> rfl
  | NOTHING => simp [tick, hm]

theorem reconcile_balance_nonneg (s : AppState) (t : ℤ)
    (hb : 0 ≤ s.playBalanceSeconds) :
    0 ≤ (reconcile s t).1.playBalanceSeconds := by
  by_cases h : elapsedSecondsAt s t ≤ 1
  · rw [reconcile_noop s t h]
    exact hb
  · have h2 : 2 ≤ elapsedSecondsAt s t := by omega
    cases hm : s.mode with
    | WORK =>
        rw [reconcile_work s t hm h2]
        refine add_nonneg hb ?_
        rw [ratFloor_eq_intFloor]
        have he : (0 : ℚ) ≤ (elapsedSecondsAt s t : ℚ) := by
          exact_mod_cast (by omega : (0 : ℤ) ≤ elapsedSecondsAt s t)
        have hp : (0 : ℚ) ≤ (elapsedSecondsAt s t : ℚ) * PLAY_GAIN_RATE :=
          mul_nonneg he (by norm_num [PLAY_GAIN_RATE])
        exact_mod_cast Int.floor_nonneg.mpr hp
    | PLAY =>
        rw [reconcile_play s t hm h2]
        split <;> exact le_max_left 0 _
    | NOTHING =>
        rw [reconcile_nothing s t hm h2]
        exact hb

theorem tick_balance_nonneg (s : AppState) (t : ℤ)
    (hb : 0 ≤ s.playBalanceSeconds) :
    0 ≤ (tick s t).1.playBalanceSeconds := by
  cases hm : s.mode with
  | WORK =>
      simp only [tick, hm]
      exact add_nonneg hb (by norm_num [PLAY_GAIN_RATE])
  | PLAY =>
      simp only [tick, hm]
      split <;> exact le_max_left 0 _
  | NOTHING => simpa [tick, hm] using hb

theorem useInventoryItems_balance_nonneg (s : AppState) (ids : List String)
    (hb : 0 ≤ s.playBalanceSeconds) (hinv : GoodInventory s) :
    0 ≤ (useInventoryItems s ids).playBalanceSeconds := by
  rw [useInventoryItems_playBalance]
  refine add_nonneg hb (mul_nonneg (List.sum_nonneg ?_) (by norm_num))
  intro x hx
  rcases List.mem_map.mp hx with ⟨item, hitem, rfl⟩
  exact hinv item (List.mem_filter.mp hitem).1

theorem applyOp_inventory_mem (s : AppState) (op : TimerOp) (item : InventoryItem)
    (h : item ∈ (applyOp s op).inventory) : item ∈ s.inventory := by
  cases op with
  | catchUp now => rwa [applyOp, reconcile_inventory] at h
  | tickAt now => rwa [applyOp, tick_inventory] at h
  | penalty => exact h
  | redeem ids =>
      rw [applyOp] at h
      exact (List.mem_filter.mp h).1

theorem applyOp_balance_nonneg (s : AppState) (op : TimerOp)
    (hb : 0 ≤ s.playBalanceSeconds) (hinv : GoodInventory s) :
    0 ≤ (applyOp s op).playBalanceSeconds := by
  cases op with
  | catchUp now => exact reconcile_balance_nonneg s now hb
  | tickAt now => exact tick_balance_nonneg s now hb
  | penalty => exact le_max_left 0 _
  | redeem ids => exact useInventoryItems_balance_nonneg s ids hb hinv

/-- C1 amended: starting from a snapshot with non-negative balance whose
inventory items all carry non-negative minutes, any finite sequence of
catch-up reconciliations, per-second ticks, penalties and redemptions
keeps `playBalanceSeconds ≥ 0`. -/
theorem balance_nonneg_invariant (s : AppState) (ops : List TimerOp)
    (hb : 0 ≤ s.playBalanceSeconds) (hinv : GoodInventory s) :
    0 ≤ (applyOps s ops).playBalanceSeconds := by
  induction ops generalizing s with
  | nil => simpa [applyOps] using hb
  | cons op rest ih =>
      have hb1 := applyOp_balance_nonneg s op hb hinv
      have hinv1 : GoodInventory (applyOp s op) := fun item h =>
        hinv item (applyOp_inventory_mem s op item h)
      simpa [applyOps, List.foldl_cons] using ih (applyOp s op) hb1 hinv1

/-- C1 witness: Scenario E's snapshot (balance 0, two positive-minute
items) keeps a non-negative balance through a penalty, a redemption of
both items and a catch-up reconciliation. -/
theorem balance_nonneg_invariant_witness :
    0 ≤ (applyOps sampleInventory2
      [TimerOp.penalty, TimerOp.redeem ["i1", "i2"],
       TimerOp.catchUp 5000]).playBalanceSeconds := by
  apply balance_nonneg_invariant
  · norm_num [sampleInventory2]
  · intro item h
    simp [sampleInventory2] at h
    rcases h with rfl | rfl <;> norm_num

/-- C1 counterexample: with only the balance assumed non-negative, the
claim fails — a (malformed) negative-minutes inventory item makes a
single redemption drive the balance to −600. -/
theorem balance_nonneg_counterexample :
    0 ≤ sampleNegItem.playBalanceSeconds ∧
    (applyOps sampleNegItem [TimerOp.redeem ["a"]]).playBalanceSeconds = -600 ∧
    ¬ 0 ≤ (applyOps sampleNegItem [TimerOp.redeem ["a"]]).playBalanceSeconds := by
  have hv : (applyOps sampleNegItem [TimerOp.redeem ["a"]]).playBalanceSeconds = -600 := by
    show (useInventoryItems sampleNegItem ["a"]).playBalanceSeconds = -600
    rw [useInventoryItems_playBalance]
    simp +decide [sampleNegItem]
    norm_num
  refine ⟨by norm_num [sampleNegItem], hv, ?_⟩
  rw [hv]
  norm_num

theorem reconcile_sampleWorkZero_2500 :
    (reconcile sampleWorkZero 2500).1 = sampleWorkAt2500 := by
  have he : elapsedSecondsAt sampleWorkZero 2500 = 2 := by decide
  rw [reconcile_work sampleWorkZero 2500 rfl (by decide)]
  show ({ sampleWorkZero with
      workElapsedSeconds := sampleWorkZero.workElapsedSeconds +
        (elapsedSecondsAt sampleWorkZero 2500 : ℚ),
      playBalanceSeconds := sampleWorkZero.playBalanceSeconds +
        ((Rat.floor ((elapsedSecondsAt sampleWorkZero 2500 : ℚ) * PLAY_GAIN_RATE) : ℤ) : ℚ),
      lastTickTimestamp := 2500 } : AppState) = sampleWorkAt2500
  rw [he]
  norm_num [sampleWorkZero, sampleWorkAt2500, PLAY_GAIN_RATE, Rat.floor_def']

/-- C5 counterexample: from the fresh WORK snapshot, reconciling at 2500
ms and then at 5000 ms accumulates only 4 seconds of work (two floored
2-second deltas), while reconciling directly at 5000 ms accumulates 5 —
the mode stays WORK throughout, yet the two paths disagree. -/
theorem reconcile_not_additive_counterexample :
    (reconcile (reconcile sampleWorkZero 2500).1 5000).1.workElapsedSeconds = 4 ∧
    (reconcile sampleWorkZero 5000).1.workElapsedSeconds = 5 ∧
    (reconcile sampleWorkZero 2500).1.mode = Mode.WORK ∧
    (reconcile (reconcile sampleWorkZero 2500).1 5000).1.mode = Mode.WORK ∧
    (reconcile sampleWorkZero 5000).1.mode = Mode.WORK ∧
    (reconcile (reconcile sampleWorkZero 2500).1 5000).1 ≠
      (reconcile sampleWorkZero 5000).1 := by
  have he2 : elapsedSecondsAt sampleWorkAt2500 5000 = 2 := by decide
  have he5 : elapsedSecondsAt sampleWorkZero 5000 = 5 := by decide
  have hstep := reconcile_work sampleWorkAt2500 5000 rfl (by decide)
  have hdir := reconcile_work sampleWorkZero 5000 rfl (by decide)
  have hL : (reconcile (reconcile sampleWorkZero 2500).1 5000).1.workElapsedSeconds = 4 := by
    rw [reconcile_sampleWorkZero_2500, hstep]
    show sampleWorkAt2500.workElapsedSeconds + (elapsedSecondsAt sampleWorkAt2500 5000 : ℚ) = 4
    rw [he2]
    norm_num [sampleWorkAt2500]
  have hR : (reconcile sampleWorkZero 5000).1.workElapsedSeconds = 5 := by
    rw [hdir]
    show sampleWorkZero.workElapsedSeconds + (elapsedSecondsAt sampleWorkZero 5000 : ℚ) = 5
    rw [he5]
    norm_num [sampleWorkZero]
  refine ⟨hL, hR, by rw [reconcile_sampleWorkZero_2500]; rfl, ?_, ?_, ?_⟩
  · rw [reconcile_sampleWorkZero_2500, hstep]
    rfl
  · rw [hdir]
    rfl
  · intro hcon
    have h45 := congrArg AppState.workElapsedSeconds hcon
    rw [hL, hR] at h45
    norm_num at h45

theorem elapsedSecondsAt_two_mul (s : AppState) (now k : ℤ)
    (h : now - s.lastTickTimestamp = 2000 * k) :
    elapsedSecondsAt s now = 2 * k := by
  unfold elapsedSecondsAt
  rw [h, show (2000 : ℤ) * k = 1000 * (2 * k) by ring,
    Int.mul_fdiv_cancel_left _ (by norm_num)]

theorem floor_half_double (k : ℤ) :
    ((Rat.floor (((2 * k : ℤ) : ℚ) * PLAY_GAIN_RATE) : ℤ) : ℚ) = ((k : ℤ) : ℚ) := by
  rw [ratFloor_eq_intFloor,
    show ((2 * k : ℤ) : ℚ) * PLAY_GAIN_RATE = ((k : ℤ) : ℚ) by
      push_cast [PLAY_GAIN_RATE]; ring,
    Int.floor_intCast]

theorem max_zero_pos_of_ne {x : ℚ} (h : ¬ max 0 x = 0) : 0 < x := by
  by_contra hc
  exact h (max_eq_left (by linarith))

/-- C5 amended: catch-up reconciliation is additive when each interval is
a whole, even number of seconds (a multiple of 2000 ms) and the mode does
not change across the reconciliations: splitting the span at
`t0 + 2000·k1` gives the same snapshot as reconciling directly at
`t0 + 2000·k1 + 2000·k2`. -/
theorem reconcile_additive_even_seconds (s : AppState) (t0 k1 k2 : ℤ)
    (hk1 : 0 ≤ k1) (hk2 : 0 ≤ k2)
    (h0 : s.lastTickTimestamp = t0)
    (hmode1 : (reconcile s (t0 + 2000 * k1)).1.mode = s.mode)
    (hmode2 : (reconcile (reconcile s (t0 + 2000 * k1)).1
        (t0 + 2000 * k1 + 2000 * k2)).1.mode = s.mode) :
    (reconcile (reconcile s (t0 + 2000 * k1)).1 (t0 + 2000 * k1 + 2000 * k2)).1 =
      (reconcile s (t0 + 2000 * k1 + 2000 * k2)).1 := by
  obtain ⟨w, p, m, l, q, i⟩ := s
  have hl : l = t0 := h0
  rw [hl] at hmode1 hmode2 ⊢
  have he1 : elapsedSecondsAt (AppState.mk w p m t0 q i) (t0 + 2000 * k1) = 2 * k1 :=
    elapsedSecondsAt_two_mul _ _ k1 (by show t0 + 2000 * k1 - t0 = 2000 * k1; ring)
  have htot : elapsedSecondsAt (AppState.mk w p m t0 q i)
      (t0 + 2000 * k1 + 2000 * k2) = 2 * (k1 + k2) :=
    elapsedSecondsAt_two_mul _ _ (k1 + k2)
      (by show t0 + 2000 * k1 + 2000 * k2 - t0 = 2000 * (k1 + k2); ring)
  rcases eq_or_lt_of_le hk1 with hk1z | hk1p
  · rw [reconcile_noop _ (t0 + 2000 * k1) (by rw [he1, ← hk1z]; norm_num)]
  · have h1 : 2 ≤ elapsedSecondsAt (AppState.mk w p m t0 q i) (t0 + 2000 * k1) := by
      rw [he1]; omega
    have h12 : 2 ≤ elapsedSecondsAt (AppState.mk w p m t0 q i)
        (t0 + 2000 * k1 + 2000 * k2) := by
      rw [htot]; omega
    cases m with
    | WORK =>
        rw [reconcile_work _ _ rfl h1, he1, floor_half_double,
          reconcile_work _ _ rfl h12, htot, floor_half_double]
        dsimp only
        have he2 : elapsedSecondsAt
            (AppState.mk (w + ((2 * k1 : ℤ) : ℚ)) (p + ((k1 : ℤ) : ℚ)) Mode.WORK
              (t0 + 2000 * k1) q i) (t0 + 2000 * k1 + 2000 * k2) = 2 * k2 :=
          elapsedSecondsAt_two_mul _ _ k2
            (by show t0 + 2000 * k1 + 2000 * k2 - (t0 + 2000 * k1) = 2000 * k2; ring)
        rcases eq_or_lt_of_le hk2 with hk2z | hk2p
        · rw [reconcile_noop _ _ (by rw [he2, ← hk2z]; norm_num), ← hk2z]
          simp [AppState.mk.injEq]
        · rw [reconcile_work _ _ rfl (by rw [he2]; omega), he2, floor_half_double]
          dsimp only
          simp [AppState.mk.injEq]
          constructor <;> ring
    | NOTHING =>
        rw [reconcile_nothing _ _ rfl h1, reconcile_nothing _ _ rfl h12]
        dsimp only
        have he2 : elapsedSecondsAt (AppState.mk w p Mode.NOTHING (t0 + 2000 * k1) q i)
            (t0 + 2000 * k1 + 2000 * k2) = 2 * k2 :=
          elapsedSecondsAt_two_mul _ _ k2
            (by show t0 + 2000 * k1 + 2000 * k2 - (t0 + 2000 * k1) = 2000 * k2; ring)
        rcases eq_or_lt_of_le hk2 with hk2z | hk2p
        · rw [reconcile_noop _ _ (by rw [he2, ← hk2z]; norm_num), ← hk2z]
          simp [AppState.mk.injEq]
        · rw [reconcile_nothing _ _ rfl (by rw [he2]; omega)]
    | PLAY =>
        rw [reconcile_play _ _ rfl h1, he1] at hmode1 hmode2 ⊢
        dsimp only at hmode1 hmode2 ⊢
        by_cases hz1 : max 0 (p - ((2 * k1 : ℤ) : ℚ)) = 0
        · rw [if_pos hz1] at hmode1
          simp at hmode1
        · rw [if_neg hz1] at hmode2 ⊢
          have hp1 : 0 < p - ((2 * k1 : ℤ) : ℚ) := max_zero_pos_of_ne hz1
          rw [max_eq_right hp1.le] at hmode2 ⊢
          dsimp only at hmode2 ⊢
          have he2 : elapsedSecondsAt
              (AppState.mk w (p - ((2 * k1 : ℤ) : ℚ)) Mode.PLAY (t0 + 2000 * k1) q i)
              (t0 + 2000 * k1 + 2000 * k2) = 2 * k2 :=
            elapsedSecondsAt_two_mul _ _ k2
              (by show t0 + 2000 * k1 + 2000 * k2 - (t0 + 2000 * k1) = 2000 * k2; ring)
          rcases eq_or_lt_of_le hk2 with hk2z | hk2p
          · rw [reconcile_noop _ _ (by rw [he2, ← hk2z]; norm_num)]
            rw [reconcile_play _ _ rfl h12, htot, ← hk2z,
              show 2 * (k1 + 0) = 2 * k1 by ring, if_neg hz1, max_eq_right hp1.le]
            dsimp only
            simp [AppState.mk.injEq]
          · rw [reconcile_play _ _ rfl (by rw [he2]; omega), he2] at hmode2 ⊢
            dsimp only at hmode2 ⊢
            by_cases hz2 : max 0 (p - ((2 * k1 : ℤ) : ℚ) - ((2 * k2 : ℤ) : ℚ)) = 0
            · rw [if_pos hz2] at hmode2
              simp at hmode2
            · rw [if_neg hz2]
              have hp2 : 0 < p - ((2 * k1 : ℤ) : ℚ) - ((2 * k2 : ℤ) : ℚ) :=
                max_zero_pos_of_ne hz2
              rw [max_eq_right hp2.le]
              rw [reconcile_play _ _ rfl h12, htot]
              rw [if_neg (by
                rw [show p - ((2 * (k1 + k2) : ℤ) : ℚ) =
                    p - ((2 * k1 : ℤ) : ℚ) - ((2 * k2 : ℤ) : ℚ) by push_cast; ring,
                  max_eq_right hp2.le]
                exact hp2.ne')]
              rw [max_eq_right (by
                rw [show p - ((2 * (k1 + k2) : ℤ) : ℚ) =
                    p - ((2 * k1 : ℤ) : ℚ) - ((2 * k2 : ℤ) : ℚ) by push_cast; ring]
                exact hp2.le)]
              dsimp only
              simp [AppState.mk.injEq]
              ring

theorem reconcile_sampleWorkZero_2000 :
    (reconcile sampleWorkZero (0 + 2000 * 1)).1 = sampleWorkAt2000 := by
  have he : elapsedSecondsAt sampleWorkZero (0 + 2000 * 1) = 2 := by decide
  rw [reconcile_work sampleWorkZero (0 + 2000 * 1) rfl (by decide)]
  show ({ sampleWorkZero with
      workElapsedSeconds := sampleWorkZero.workElapsedSeconds +
        (elapsedSecondsAt sampleWorkZero (0 + 2000 * 1) : ℚ),
      playBalanceSeconds := sampleWorkZero.playBalanceSeconds +
        ((Rat.floor ((elapsedSecondsAt sampleWorkZero (0 + 2000 * 1) : ℚ) *
          PLAY_GAIN_RATE) : ℤ) : ℚ),
      lastTickTimestamp := 0 + 2000 * 1 } : AppState) = sampleWorkAt2000
  rw [he]
  norm_num [sampleWorkZero, sampleWorkAt2000, PLAY_GAIN_RATE, Rat.floor_def']

/-- C5 witness: over two whole 2-second legs in WORK mode, reconciling at
2000 ms and then 4000 ms equals reconciling directly at 4000 ms. -/
theorem reconcile_additive_even_seconds_witness :
    (reconcile (reconcile sampleWorkZero (0 + 2000 * 1)).1
        (0 + 2000 * 1 + 2000 * 1)).1 =
      (reconcile sampleWorkZero (0 + 2000 * 1 + 2000 * 1)).1 :=
  reconcile_additive_even_seconds sampleWorkZero 0 1 1 (by norm_num) (by norm_num) rfl
    (by rw [reconcile_sampleWorkZero_2000]; rfl)
    (by rw [reconcile_sampleWorkZero_2000,
          reconcile_work sampleWorkAt2000 (0 + 2000 * 1 + 2000 * 1) rfl (by decide)]; rfl)
